import Mathlib

/-!
Verification development for the VisionAssistant frame-to-narration pipeline
(`app.py` together with the `describe_scene` wrapper in `vertex_ai.py`).

The control pipeline is embedded shallowly: external collaborators (YOLO
detector, Vertex AI generator, speech sink, camera) appear as oracle
parameters, machine time is modelled by rationals, and the stateful loops
become explicit state-passing step functions over traces of events.
-/

/-! ## Similarity comparator (`_normalize` / `_is_similar` in app.py) -/

/-- Whitespace characters recognised by the Python regex class `\s`
(for the ASCII inputs the pipeline handles). -/
def pyIsSpace (c : Char) : Bool :=
  c = ' ' || c = '\t' || c = '\n' || c = '\r' || c = '\x0b' || c = '\x0c'

/-- Remove leading and trailing whitespace, modelling `str.strip()`. -/
def stripChars (l : List Char) : List Char :=
  ((l.dropWhile (fun c => pyIsSpace c)).reverse.dropWhile (fun c => pyIsSpace c)).reverse

/-- Structural worker for `collapseWS`: the flag records whether the previous
character was whitespace (in which case further whitespace is dropped). -/
def collapseWSAux : Bool → List Char → List Char
  | _, [] => []
  | prevSpace, c :: cs =>
    if pyIsSpace c then
      if prevSpace then collapseWSAux true cs
      else ' ' :: collapseWSAux true cs
    else c :: collapseWSAux false cs

/-- Replace each maximal whitespace run by a single space, modelling
`re.sub(r"\s+", " ", text)`. -/
def collapseWS (l : List Char) : List Char := collapseWSAux false l

/-- One character of `re.sub(r"[^a-z0-9\s]", " ", text)`: characters outside
lowercase letters, digits and whitespace become a single space. -/
def keepChar (c : Char) : Char :=
  if (decide ('a' ≤ c ∧ c ≤ 'z') || decide ('0' ≤ c ∧ c ≤ '9')) || pyIsSpace c then c
  else ' '

/-- The `_normalize` helper of app.py: lowercase, strip, collapse all
non-alphanumeric characters to spaces, collapse whitespace runs, strip. -/
def normalizeText (s : String) : String :=
  String.mk (stripChars (collapseWS ((stripChars (s.data.map Char.toLower)).map keepChar)))

/-- Ascending list of the positions at which character `c` occurs in `b`,
modelling the `b2j` position table of `difflib.SequenceMatcher`. -/
def posList (b : List Char) (c : Char) : List Nat :=
  (List.range b.length).filter (fun j => b.get? j = some (c))

/-- Inner step of `SequenceMatcher.find_longest_match`: process one candidate
position `j` of the current character, threading the new length table and the
best block found so far. -/
def flmStep (j2len : Nat → Nat) (blo bhi i : Nat)
    (acc : (Nat → Nat) × (Nat × Nat × Nat)) (j : Nat) :
    (Nat → Nat) × (Nat × Nat × Nat) :=
  if j < blo || bhi ≤ j then acc
  else
    let k := (if j = 0 then 0 else j2len (j - 1)) + 1
    let tbl := fun jj => if jj = j then k else acc.1 jj
    if acc.2.2.2 < k then (tbl, (i + 1 - k, j + 1 - k, k))
    else (tbl, acc.2)

/-- `SequenceMatcher.find_longest_match` over `a[alo:ahi]` and `b[blo:bhi]`
(no junk: the inputs are short normalized strings, so autojunk is inactive
and the junk-extension loops are no-ops). Returns `(i, j, size)`. -/
def findLongestMatch (a b : List Char) (alo ahi blo bhi : Nat) : Nat × Nat × Nat :=
  ((List.range' alo (ahi - alo)).foldl
    (fun (st : (Nat → Nat) × (Nat × Nat × Nat)) i =>
      (posList b (a.getD i ' ')).foldl (flmStep st.1 blo bhi i) ((fun _ => 0), st.2))
    ((fun _ => 0), (alo, blo, 0))).2

/-- Total size of the matching blocks of `SequenceMatcher` on the given
ranges (the sum over `get_matching_blocks`), with explicit fuel; each
recursive call shrinks both ranges, so fuel `ahi + bhi + 1` suffices. -/
def matchedTotal (a b : List Char) : Nat → Nat → Nat → Nat → Nat → Nat
  | 0, _, _, _, _ => 0
  | fuel + 1, alo, ahi, blo, bhi =>
    let r := findLongestMatch a b alo ahi blo bhi
    if r.2.2 = 0 then 0
    else
      matchedTotal a b fuel alo r.1 blo r.2.1 + r.2.2 +
      matchedTotal a b fuel (r.1 + r.2.2) ahi (r.2.1 + r.2.2) bhi

/-- The test `SequenceMatcher(None, na, nb).ratio() >= 0.88` of app.py,
expressed with exact rational arithmetic: `2*M/(|a|+|b|) ≥ 88/100`. -/
def ratioGE88 (na nb : String) : Bool :=
  let a := na.data
  let b := nb.data
  let m := matchedTotal a b (a.length + b.length + 1) 0 a.length 0 b.length
  decide (22 * (a.length + b.length) ≤ 50 * m)

/-- Structural worker for `pyWords`: `acc` holds the current token reversed. -/
def pyWordsAux : List Char → List Char → List String
  | acc, [] => if acc = [] then [] else [String.mk acc.reverse]
  | acc, c :: cs =>
    if pyIsSpace c then
      if acc = [] then pyWordsAux [] cs
      else String.mk acc.reverse :: pyWordsAux [] cs
    else pyWordsAux (c :: acc) cs

/-- `str.split()`: whitespace-separated tokens, no empty tokens. -/
def pyWords (s : String) : List String := pyWordsAux [] s.data

/-- The token-set Jaccard test of app.py: both token sets non-empty and
`|sa ∩ sb| / max 1 |sa ∪ sb| ≥ 0.8`, in exact arithmetic. -/
def jaccardGE80 (na nb : String) : Bool :=
  let sa := (pyWords na).dedup
  let sb := (pyWords nb).dedup
  let inter := sa.filter (fun w => decide (w ∈ sb))
  let union := sa ++ sb.filter (fun w => decide (¬ w ∈ sa))
  decide (sa ≠ [] ∧ sb ≠ [] ∧ 4 * max 1 union.length ≤ 5 * inter.length)

/-- The `_is_similar` comparator of app.py (duplicated verbatim in the TTS
worker and in `main`): normalize both strings, then exact match, then
sequence ratio ≥ 0.88, then Jaccard ≥ 0.8. -/
def is_similar (a b : String) : Bool :=
  let na := normalizeText a
  let nb := normalizeText b
  if na = "" || nb = "" then false
  else if na = nb then true
  else if ratioGE88 na nb then true
  else if jaccardGE80 na nb then true
  else false

/-! ## Label stabilizer (`recent_label_sets` window in app.py `main`) -/

/-- Append one frame label set to the rolling window, evicting from the front
when capacity is exceeded: `deque(maxlen=cap).append`. -/
def pushWindow (cap : Nat) (w : List (List String)) (s : List String) : List (List String) :=
  (w ++ [s]).drop (w.length + 1 - cap)

/-- Window contents after observing a whole sequence of frame label sets,
starting empty. -/
def windowOf (cap : Nat) (frames : List (List String)) : List (List String) :=
  frames.foldl (pushWindow cap) []

/-- Occurrence count of label `l` across the window: one per window entry
containing `l` (`Counter.update` over sets counts each member once). -/
def countFrames (w : List (List String)) (l : String) : Nat :=
  w.countP (fun s => decide (l ∈ s))

/-- The `stable_labels` list of `process_frame`: labels occurring in the
window whose count reaches `min_hits`. -/
def stable_labels (minHits : Nat) (w : List (List String)) : List String :=
  w.flatten.dedup.filter (fun l => decide (minHits ≤ countFrames w l))

/-! ## Analysis cycle (`process_frame` in app.py) -/

/-- One detection as consumed by `process_frame`: its label and its optional
distance bucket (`d.get("distance")`). -/
structure Detection where
  label : String
  distance : Option String
  deriving DecidableEq

/-- Config values read from the environment in `main`: deque capacity
(already clamped to ≥ 1 by the caller), `DETECTION_SMOOTHING_MIN_HITS`, and
`FORCE_NARRATION_EVERY_S`. -/
structure PFConfig where
  cap : Nat
  minHits : Nat
  forceS : ℚ
  deriving DecidableEq

/-- The mutable state touched by `process_frame`: the rolling window, the
last recorded detection key, and the last-AI timestamp. -/
structure PFState where
  window : List (List String)
  lastKey : Option (List String)
  lastAiTs : ℚ
  deriving DecidableEq

/-- Distinct labels of the frame: `{d["label"] for d in detections}`. -/
def labelsOf (dets : List Detection) : List String :=
  (dets.map (fun d => d.label)).dedup

/-- Insert into a sorted list of strings. -/
def insertSorted (x : String) : List String → List String
  | [] => [x]
  | y :: ys => if x < y then x :: y :: ys else y :: insertSorted x ys

/-- Canonical sorted key: `tuple(sorted(stable_labels))`. -/
def sortKey (l : List String) : List String := l.foldr insertSorted []

/-- The window as updated by the current cycle. -/
def cycleWindow (cfg : PFConfig) (st : PFState) (dets : List Detection) :
    List (List String) :=
  pushWindow cfg.cap st.window (labelsOf dets)

/-- The stabilized label list of the current cycle. -/
def cycleStable (cfg : PFConfig) (st : PFState) (dets : List Detection) :
    List String :=
  stable_labels cfg.minHits (cycleWindow cfg st dets)

/-- `stable_detections`: detections whose label is stabilized. -/
def cycleStableDets (cfg : PFConfig) (st : PFState) (dets : List Detection) :
    List Detection :=
  dets.filter (fun d => decide (d.label ∈ cycleStable cfg st dets))

/-- `has_urgent_hazard`: some stable detection carries distance
`very_close`. -/
def cycleUrgent (cfg : PFConfig) (st : PFState) (dets : List Detection) : Bool :=
  (cycleStableDets cfg st dets).any (fun d => decide (d.distance = some "very_close"))

/-- `detection_key = tuple(sorted(stable_labels))`. -/
def cycleKey (cfg : PFConfig) (st : PFState) (dets : List Detection) : List String :=
  sortKey (cycleStable cfg st dets)

/-- The `describe_scene` wrapper of vertex_ai.py, relative to an oracle
`gen` standing for the underlying Vertex AI model call: an empty detection
list returns `None` before any model call. The second component records
whether the model call happened. -/
def describe_scene (gen : List Detection → Option String)
    (dets : List Detection) : Option String × Bool :=
  if dets = [] then (none, false) else (gen dets, true)

/-- Result of one `process_frame` cycle: updated state, narration returned
to the completion handlers, whether `describe_scene` was reached, and
whether the underlying model call happened. -/
structure PFResult where
  state : PFState
  narration : Option String
  describeCalled : Bool
  genCalled : Bool
  deriving DecidableEq

/-- The `process_frame` closure of app.py. `now` is the clock read at the
unchanged-scene gate, `nowAfter` the clock read after generation. -/
def process_frame (cfg : PFConfig) (gen : List Detection → Option String)
    (st : PFState) (dets : List Detection) (now nowAfter : ℚ) : PFResult :=
  if dets = [] then
    ⟨⟨cycleWindow cfg st dets, st.lastKey, st.lastAiTs⟩, none, false, false⟩
  else
    let w := cycleWindow cfg st dets
    let key := cycleKey cfg st dets
    if st.lastKey = some key ∧ cycleUrgent cfg st dets = false ∧
        ¬(cfg.forceS > 0 ∧ now - st.lastAiTs ≥ cfg.forceS) then
      ⟨⟨w, st.lastKey, st.lastAiTs⟩, none, false, false⟩
    else
      let r := describe_scene gen (cycleStableDets cfg st dets)
      match r.1 with
      | none => ⟨⟨w, st.lastKey, st.lastAiTs⟩, none, true, r.2⟩
      | some t =>
        if t = "" then ⟨⟨w, st.lastKey, st.lastAiTs⟩, none, true, r.2⟩
        else ⟨⟨w, some key, nowAfter⟩, some t, true, r.2⟩

/-! ## Dedup-and-enqueue (completion handlers in app.py `main`) -/

/-- Python truthiness of an optional string. -/
def pyTruthy : Option String → Bool
  | none => false
  | some s => decide (s ≠ "")

/-- Shared enqueue state of `main`: `last_enqueue_ts`, `last_enqueued_text`,
`last_enqueued_detection_key`. -/
structure EnqState where
  lastTs : ℚ
  lastText : Option String
  lastKey : Option (List String)
  deriving DecidableEq

/-- The dedup-and-enqueue step shared by both completion paths of app.py:
cooldown check, near-duplicate suppression keyed on the current detection
key, bounded non-blocking push. Returns the new state, the new queue and
whether the text was enqueued. -/
def tryEnqueue (cooldown : ℚ) (qcap : Nat) (st : EnqState) (q : List String)
    (text : String) (currentKey : Option (List String)) (now : ℚ) :
    EnqState × List String × Bool :=
  if cooldown > 0 ∧ now - st.lastTs < cooldown then (st, q, false)
  else if pyTruthy st.lastText = true ∧ currentKey ≠ none ∧
      st.lastKey = currentKey ∧ is_similar text (st.lastText.getD "") = true then
    (st, q, false)
  else if qcap ≤ q.length then (st, q, false)
  else (⟨now, some text, currentKey⟩, q ++ [text], true)

/-- The dedup-and-enqueue step as the specification words it (claim C5):
reject on cooldown, reject when the last text is set and the record key
equals the last key and the text is similar, reject when the queue is full,
otherwise push and update all three fields. -/
def dedupSpec (cooldown : ℚ) (qcap : Nat) (st : EnqState) (q : List String)
    (text : String) (k : List String) (now : ℚ) :
    EnqState × List String × Bool :=
  if now - st.lastTs < cooldown then (st, q, false)
  else if st.lastText ≠ none ∧ st.lastKey = some k ∧
      is_similar text (st.lastText.getD "") = true then
    (st, q, false)
  else if qcap ≤ q.length then (st, q, false)
  else (⟨now, some text, some k⟩, q ++ [text], true)

/-- The narration handed to a completion handler when `text` is truthy:
the dedup-and-enqueue step; otherwise no change (`if not text`). -/
def handleCompletion (cooldown : ℚ) (qcap : Nat) (st : EnqState)
    (q : List String) (t : Option String) (currentKey : Option (List String))
    (now : ℚ) : EnqState × List String :=
  match t with
  | none => (st, q)
  | some tx =>
    if tx = "" then (st, q)
    else
      let r := tryEnqueue cooldown qcap st q tx currentKey now
      (r.1, r.2.1)

/-- The asynchronous completion path (`_on_done`): `fut.result()` is wrapped
in try/except, so a raising cycle is absorbed with no state change. -/
def handleCallback (cooldown : ℚ) (qcap : Nat) (st : EnqState)
    (q : List String) (res : Except String (Option String))
    (currentKey : Option (List String)) (now : ℚ) : EnqState × List String :=
  match res with
  | .error _ => (st, q)
  | .ok t => handleCompletion cooldown qcap st q t currentKey now

/-- The synchronous-immediate completion path of the sampler loop:
`text = pending.result()` at app.py line 227 is NOT wrapped in try/except
(only `KeyboardInterrupt` is caught around the loop), so a raising cycle
re-raises out of the loop body. -/
def handleImmediate (cooldown : ℚ) (qcap : Nat) (st : EnqState)
    (q : List String) (res : Except String (Option String))
    (currentKey : Option (List String)) (now : ℚ) :
    Except String (EnqState × List String) :=
  match res with
  | .error e => .error e
  | .ok t => .ok (handleCompletion cooldown qcap st q t currentKey now)

/-! ## Speech worker (`_tts_worker` in app.py) -/

/-- Worker-local state: `last_spoken_text`, `last_spoken_ts`. -/
structure SpeechState where
  lastText : Option String
  lastTs : ℚ
  deriving DecidableEq

/-- Handling of one dequeued text at clock `now`; `ok` tells whether the
external `speak` call succeeds or raises. Returns the new state and whether
the speech sink was invoked. On a raising sink the state updates are
skipped (the assignments after `speak(text)` never run). -/
def ttsStep (cooldown : ℚ) (st : SpeechState) (now : ℚ) (text : String)
    (ok : Bool) : SpeechState × Bool :=
  if cooldown > 0 ∧ now - st.lastTs < cooldown then (st, false)
  else if pyTruthy st.lastText = true ∧ is_similar text (st.lastText.getD "") = true then
    (st, false)
  else if ok then (⟨some text, now⟩, true)
  else (st, true)

/-- Worker run from a given state over a trace of dequeue events
`(now, text, ok)`, collecting the clock values at which the speech sink was
invoked. -/
def ttsInvocationsFrom (cooldown : ℚ) : SpeechState → List (ℚ × String × Bool) → List ℚ
  | _, [] => []
  | st, e :: rest =>
    let r := ttsStep cooldown st e.1 e.2.1 e.2.2
    if r.2 then e.1 :: ttsInvocationsFrom cooldown r.1 rest
    else ttsInvocationsFrom cooldown r.1 rest

/-- Worker run from the initial state (`last_spoken_text = None`,
`last_spoken_ts = 0.0`). -/
def ttsInvocations (cooldown : ℚ) (trace : List (ℚ × String × Bool)) : List ℚ :=
  ttsInvocationsFrom cooldown ⟨none, 0⟩ trace

/-! ## Sampler loop admission (app.py `main`, lines 205-223) -/

/-- Events seen by the sampler loop: a camera frame arrival, or completion
of the in-flight analysis task. -/
inductive LoopEvent where
  | frame
  | complete
  deriving DecidableEq

/-- Sampler loop state: the frame counter, the `pending` future
(`none` = no future yet, `some d` = a future whose `done()` is `d`), plus
ghost counters of submitted and completed analysis tasks. -/
structure LoopState where
  frameIdx : Nat
  pendingDone : Option Bool
  submitted : Nat
  completed : Nat
  deriving DecidableEq

/-- One step of the sampler loop. A frame is dropped unless its index is a
multiple of the stride `n`; a sampled frame is dropped when a pending,
not-yet-done analysis exists; otherwise it is submitted, overwriting the
completed handle. Completion marks the running task done. -/
def loopStep (n : Nat) (s : LoopState) : LoopEvent → LoopState
  | .frame =>
    let idx := s.frameIdx + 1
    if idx % n ≠ 0 then ⟨idx, s.pendingDone, s.submitted, s.completed⟩
    else
      match s.pendingDone with
      | some false => ⟨idx, s.pendingDone, s.submitted, s.completed⟩
      | _ => ⟨idx, some false, s.submitted + 1, s.completed⟩
  | .complete =>
    match s.pendingDone with
    | some false => ⟨s.frameIdx, some true, s.submitted, s.completed + 1⟩
    | _ => s

/-- Loop state at startup. -/
def loopInit : LoopState := ⟨0, none, 0, 0⟩

/-- Loop state after an arbitrary event sequence. -/
def loopRun (n : Nat) (evs : List LoopEvent) : LoopState :=
  evs.foldl (loopStep n) loopInit

/-- Number of analysis tasks currently in flight. -/
def inFlight (s : LoopState) : Nat := s.submitted - s.completed

/-! ## Concrete instances used by counterexamples and witnesses -/

/-- Config with the default window 3, min hits 2, no forced narration. -/
def cfgDefault : PFConfig := ⟨3, 2, 0⟩

/-- Fresh `process_frame` state. -/
def stFresh : PFState := ⟨[], none, 0⟩

/-- A single person detection with no depth information. -/
def detsPerson : List Detection := [⟨"person", none⟩]

/-- Generator oracle always producing a fixed sentence. -/
def genConst : List Detection → Option String := fun _ => some "A person is ahead"

/-- Generator oracle that always fails to produce text. -/
def genNone : List Detection → Option String := fun _ => none

/-- Config with window 1 and min hits 1: every detection is stable at once. -/
def cfgQuick : PFConfig := ⟨1, 1, 0⟩

/-- A single very close car detection. -/
def detsUrgent : List Detection := [⟨"car", some "very_close"⟩]

/-- State that has already narrated a car scene. -/
def stSeenCar : PFState := ⟨[], some ["car"], 0⟩

/-- Inductive invariant of the sampler loop tying the ghost counters to the
pending handle: a running pending task accounts for exactly one submitted
but uncompleted task, and otherwise the counters agree. -/
def LoopInv (s : LoopState) : Prop :=
  (s.pendingDone = some false → s.submitted = s.completed + 1)
  ∧ (s.pendingDone ≠ some false → s.submitted = s.completed)

/-! ## Theorems -/

/-- Similarity against a last text that is the empty string is always false:
normalization of the empty string is empty, and the comparator rejects empty
normalized operands. -/
theorem is_similar_empty_right (t : String) : is_similar t "" = false := by
  have h : normalizeText "" = "" := by decide
  simp [is_similar, h]

/-- C6 counterexample: the claim asserts `similar(x, x) = true` for every
non-empty string `x`, but for `x = "!"` (non-empty) normalization yields the
empty string and the comparator returns false. -/
theorem similar_self_counterexample :
    ("!" : String) ≠ "" ∧ is_similar "!" "!" = false := by
  exact ⟨by decide, by decide⟩

set_option maxRecDepth 80000 in
/-- C6 amended: `similar(x, x) = true` for every string whose normalization
is non-empty; `similar("A car is near", "a car is near!!") = true`; and
`similar("A car is near", "A person is far") = false`. -/
theorem similar_comparator_amended :
    (∀ x : String, normalizeText x ≠ "" → is_similar x x = true)
    ∧ is_similar "A car is near" "a car is near!!" = true
    ∧ is_similar "A car is near" "A person is far" = false := by
  refine ⟨fun x hx => ?_, by decide, by decide⟩
  simp [is_similar, hx]

/-- C4: on the synchronous-immediate completion path the sampler loop calls
`pending.result()` without a try/except, so a cycle whose detector raised
re-raises out of the loop body (only `KeyboardInterrupt` is caught), while
the asynchronous callback path absorbs the same failure with no state
change. Evaluates both embedded handlers at the failing input. -/
theorem sync_path_propagates_detector_error :
    handleImmediate 3 2 ⟨0, none, none⟩ [] (Except.error "detector failure") none 10
      = Except.error "detector failure"
    ∧ handleCallback 3 2 ⟨0, none, none⟩ [] (Except.error "detector failure") none 10
      = (⟨0, none, none⟩, []) := by
  exact ⟨rfl, rfl⟩

/-- C5: for a narration record carrying a detection key, the code's
dedup-and-enqueue step agrees with the specification's ordered checks:
cooldown reject, near-duplicate reject requiring detection-key equality
(so near-duplicate text under a different key is admitted), full-queue
reject, and otherwise push plus update of all three state fields, each
rejection leaving state and queue unchanged. -/
theorem dedup_enqueue_checks (cooldown : ℚ) (qcap : Nat) (st : EnqState)
    (q : List String) (text : String) (k : List String) (now : ℚ)
    (hts : st.lastTs ≤ now) :
    tryEnqueue cooldown qcap st q text (some k) now
      = dedupSpec cooldown qcap st q text k now := by
  have h1 : (cooldown > 0 ∧ now - st.lastTs < cooldown) ↔ now - st.lastTs < cooldown := by
    constructor
    · exact fun h => h.2
    · intro h
      exact ⟨by linarith, h⟩
  have h2 : (pyTruthy st.lastText = true ∧ (some k : Option (List String)) ≠ none ∧
      st.lastKey = some k ∧ is_similar text (st.lastText.getD "") = true)
      ↔ (st.lastText ≠ none ∧ st.lastKey = some k ∧
        is_similar text (st.lastText.getD "") = true) := by
    cases hlt : st.lastText with
    | none => simp [pyTruthy]
    | some s =>
      by_cases hs : s = ""
      · subst hs
        simp [pyTruthy, is_similar_empty_right]
      · simp [pyTruthy, hs]
  rw [tryEnqueue, dedupSpec]
  simp only [h1, h2]

/-- C5 witness: the checks coincide at a concrete admitted record. -/
theorem dedup_enqueue_checks_witness :
    tryEnqueue 3 2 ⟨0, none, none⟩ [] "A car is near" (some ["car"]) 10
      = dedupSpec 3 2 ⟨0, none, none⟩ [] "A car is near" ["car"] 10 :=
  dedup_enqueue_checks 3 2 ⟨0, none, none⟩ [] "A car is near" ["car"] 10 (by norm_num)

/-- C10: when the generation step yields no text or empty text, the cycle
produces no narration and leaves the recorded detection key and the last-AI
timestamp unchanged: they are updated only after a successful non-empty
generation. -/
theorem failed_generation_keeps_state (cfg : PFConfig)
    (gen : List Detection → Option String) (st : PFState)
    (dets : List Detection) (now nowAfter : ℚ)
    (hgen : gen (cycleStableDets cfg st dets) = none
      ∨ gen (cycleStableDets cfg st dets) = some "") :
    (process_frame cfg gen st dets now nowAfter).narration = none
    ∧ (process_frame cfg gen st dets now nowAfter).state.lastKey = st.lastKey
    ∧ (process_frame cfg gen st dets now nowAfter).state.lastAiTs = st.lastAiTs := by
  unfold process_frame
  by_cases hd : dets = []
  · simp [hd]
  · rw [if_neg hd]
    dsimp only
    split_ifs with hskip
    · simp
    · unfold describe_scene
      by_cases hsd : cycleStableDets cfg st dets = []
      · simp [hsd]
      · rw [if_neg hsd]
        rcases hgen with h | h <;> simp [h]

/-- C10 witness: a generator returning `None` at a concrete cycle. -/
theorem failed_generation_keeps_state_witness :
    (process_frame cfgDefault genNone stFresh detsPerson 0 0).narration = none
    ∧ (process_frame cfgDefault genNone stFresh detsPerson 0 0).state.lastKey
      = stFresh.lastKey
    ∧ (process_frame cfgDefault genNone stFresh detsPerson 0 0).state.lastAiTs
      = stFresh.lastAiTs :=
  failed_generation_keeps_state cfgDefault genNone stFresh detsPerson 0 0 (Or.inl rfl)

/-- C9 counterexample: a first frame with one person detection under the
default window 3 / min hits 2 yields an empty stabilized label set, yet
`describe_scene` (the narration generator boundary) is invoked for that
cycle: the scene-change check of the code does not gate on the empty key. -/
theorem empty_key_generator_called :
    cycleStable cfgDefault stFresh detsPerson = []
    ∧ (process_frame cfgDefault genConst stFresh detsPerson 0 0).describeCalled = true := by
  exact ⟨by decide, by decide⟩

/-- C9 amended: a cycle with an empty stabilized label set produces no
narration and never reaches the underlying model call; `describe_scene`
itself may still be invoked, but its empty-detections guard returns `None`
first. -/
theorem empty_stable_suppresses_model (cfg : PFConfig)
    (gen : List Detection → Option String) (st : PFState)
    (dets : List Detection) (now nowAfter : ℚ)
    (hstable : cycleStable cfg st dets = []) :
    (process_frame cfg gen st dets now nowAfter).narration = none
    ∧ (process_frame cfg gen st dets now nowAfter).genCalled = false := by
  unfold process_frame
  by_cases hd : dets = []
  · simp [hd]
  · rw [if_neg hd]
    have hsd : cycleStableDets cfg st dets = [] := by
      unfold cycleStableDets
      rw [hstable]
      simp
    dsimp only
    split_ifs with hskip
    · simp
    · simp [describe_scene, hsd]

/-- C9 amended witness: the concrete first-frame cycle above. -/
theorem empty_stable_suppresses_model_witness :
    (process_frame cfgDefault genConst stFresh detsPerson 0 0).narration = none
    ∧ (process_frame cfgDefault genConst stFresh detsPerson 0 0).genCalled = false :=
  empty_stable_suppresses_model cfgDefault genConst stFresh detsPerson 0 0 (by decide)

/-- C2: when the stabilized detection key of the cycle equals the recorded
key but some stable detection is very close, the urgent override bypasses
the unchanged-scene suppression: `describe_scene` is reached and the
underlying model call happens. -/
theorem urgent_override_bypasses_suppression (cfg : PFConfig)
    (gen : List Detection → Option String) (st : PFState)
    (dets : List Detection) (now nowAfter : ℚ)
    (hkey : st.lastKey = some (cycleKey cfg st dets))
    (hurg : cycleUrgent cfg st dets = true) :
    (process_frame cfg gen st dets now nowAfter).describeCalled = true
    ∧ (process_frame cfg gen st dets now nowAfter).genCalled = true := by
  have hsd : cycleStableDets cfg st dets ≠ [] := by
    intro h
    rw [cycleUrgent, h] at hurg
    simp at hurg
  have hd : dets ≠ [] := by
    intro h
    apply hsd
    rw [cycleStableDets, h]
    simp
  unfold process_frame
  rw [if_neg hd]
  have hcond : ¬(st.lastKey = some (cycleKey cfg st dets)
      ∧ cycleUrgent cfg st dets = false
      ∧ ¬(cfg.forceS > 0 ∧ now - st.lastAiTs ≥ cfg.forceS)) := by
    rintro ⟨-, h2, -⟩
    rw [hurg] at h2
    simp at h2
  dsimp only
  rw [if_neg hcond]
  unfold describe_scene
  rw [if_neg hsd]
  cases hg : gen (cycleStableDets cfg st dets) with
  | none => simp [hg]
  | some t =>
    by_cases ht : t = "" <;> simp [hg, ht]

/-- C2 witness: window 1, min hits 1, a very close car whose key equals the
recorded key. -/
theorem urgent_override_bypasses_suppression_witness :
    (process_frame cfgQuick genConst stSeenCar detsUrgent 0 0).describeCalled = true
    ∧ (process_frame cfgQuick genConst stSeenCar detsUrgent 0 0).genCalled = true :=
  urgent_override_bypasses_suppression cfgQuick genConst stSeenCar detsUrgent 0 0
    (by decide) (by decide)

/-- C3: two consecutive cycles, the first producing non-empty narration
(hence recording its key), the second with the same stabilized key, no
urgent hazard and `FORCE_NARRATION_EVERY_S = 0`: the second cycle skips the
generation step entirely and produces no narration. -/
theorem unchanged_scene_suppressed (cfg : PFConfig)
    (gen : List Detection → Option String) (st : PFState)
    (d1 d2 : List Detection) (t1 t1x t2 t2x : ℚ) (tx : String)
    (hforce : cfg.forceS = 0)
    (h1 : (process_frame cfg gen st d1 t1 t1x).narration = some tx)
    (hkey : cycleKey cfg (process_frame cfg gen st d1 t1 t1x).state d2
      = cycleKey cfg st d1)
    (hurg : cycleUrgent cfg (process_frame cfg gen st d1 t1 t1x).state d2 = false) :
    (process_frame cfg gen (process_frame cfg gen st d1 t1 t1x).state d2 t2 t2x).narration
      = none
    ∧ (process_frame cfg gen (process_frame cfg gen st d1 t1 t1x).state d2 t2 t2x).describeCalled
      = false := by
  have hlk : (process_frame cfg gen st d1 t1 t1x).state.lastKey
      = some (cycleKey cfg st d1) := by
    revert h1
    unfold process_frame
    by_cases hd : d1 = []
    · simp [hd]
    · rw [if_neg hd]
      dsimp only
      split_ifs with hskip
      · simp
      · unfold describe_scene
        by_cases hsd : cycleStableDets cfg st d1 = []
        · simp [hsd]
        · rw [if_neg hsd]
          cases hg : gen (cycleStableDets cfg st d1) with
          | none => simp
          | some t => by_cases ht : t = "" <;> simp [ht]
  set s1 := (process_frame cfg gen st d1 t1 t1x).state with hs1def
  by_cases hd2 : d2 = []
  · unfold process_frame
    simp [hd2]
  · have hcond : s1.lastKey = some (cycleKey cfg s1 d2)
        ∧ cycleUrgent cfg s1 d2 = false
        ∧ ¬(cfg.forceS > 0 ∧ t2 - s1.lastAiTs ≥ cfg.forceS) := by
      refine ⟨?_, hurg, ?_⟩
      · rw [hlk, hkey]
      · rintro ⟨hf, -⟩
        rw [hforce] at hf
        exact absurd hf (by norm_num)
    unfold process_frame
    rw [if_neg hd2]
    dsimp only
    rw [if_pos hcond]
    exact ⟨rfl, rfl⟩

/-- C3 witness: person detected twice in a row with window 1 / min hits 1;
the second cycle is suppressed. -/
theorem unchanged_scene_suppressed_witness :
    (process_frame cfgQuick genConst
      (process_frame cfgQuick genConst stFresh detsPerson 0 0).state
      detsPerson 1 1).narration = none
    ∧ (process_frame cfgQuick genConst
      (process_frame cfgQuick genConst stFresh detsPerson 0 0).state
      detsPerson 1 1).describeCalled = false :=
  unchanged_scene_suppressed cfgQuick genConst stFresh detsPerson detsPerson 0 0 1 1
    "A person is ahead" rfl (by decide) (by decide) (by decide)

/-- Length of the window after one push: it grows by one until it reaches
capacity and stays there. -/
theorem pushWindow_length (cap : Nat) (w : List (List String)) (s : List String) :
    (pushWindow cap w s).length = min (w.length + 1) cap := by
  simp [pushWindow]
  omega

/-- Folding pushes over a window of legal length keeps the suffix of the
combined sequence that fits the capacity. -/
theorem foldl_pushWindow_eq (cap : Nat) (frames : List (List String)) :
    ∀ w : List (List String), w.length ≤ cap →
      frames.foldl (pushWindow cap) w
        = (w ++ frames).drop (w.length + frames.length - cap) := by
  induction frames with
  | nil =>
    intro w hw
    simp [Nat.sub_eq_zero_of_le hw]
  | cons f fs ih =>
    intro w hw
    rw [List.foldl_cons]
    have hlen : (pushWindow cap w f).length ≤ cap := by
      rw [pushWindow_length]
      omega
    rw [ih (pushWindow cap w f) hlen, pushWindow_length, pushWindow]
    have hd1 : w.length + 1 - cap ≤ (w ++ [f]).length := by
      simp only [List.length_append, List.length_cons, List.length_nil]
      omega
    rw [← List.drop_append_of_le_length hd1, List.drop_drop]
    have hl : w ++ [f] ++ fs = w ++ f :: fs := by simp
    rw [hl]
    congr 1
    simp only [List.length_cons]
    omega

/-- The window after observing a frame sequence is exactly the last `cap`
frames of the sequence. -/
theorem windowOf_eq_drop (cap : Nat) (frames : List (List String)) :
    windowOf cap frames = frames.drop (frames.length - cap) := by
  have h := foldl_pushWindow_eq cap frames [] (by simp)
  simpa [windowOf] using h

/-- C7: over any observed frame sequence of length at least K, with window
capacity K and min hits M ≤ K: a label contained in every one of the last K
frames is in the stable label set, and a label contained in fewer than M of
the last K frames is not. -/
theorem stabilizer_window_property (K M : Nat) (hK : 1 ≤ K) (hMK : M ≤ K)
    (frames : List (List String)) (hlen : K ≤ frames.length) (l : String) :
    ((∀ s ∈ frames.drop (frames.length - K), l ∈ s) →
      l ∈ stable_labels M (windowOf K frames))
    ∧ (countFrames (frames.drop (frames.length - K)) l < M →
      l ∉ stable_labels M (windowOf K frames)) := by
  rw [windowOf_eq_drop]
  set w := frames.drop (frames.length - K) with hw
  have hwlen : w.length = K := by
    rw [hw, List.length_drop]
    omega
  constructor
  · intro hall
    have hcount : countFrames w l = K := by
      unfold countFrames
      rw [List.countP_eq_length.mpr (fun s hs => by simpa using hall s hs)]
      exact hwlen
    have hne : w ≠ [] := by
      intro h
      rw [h] at hwlen
      simp at hwlen
      omega
    obtain ⟨s0, hs0⟩ := List.exists_mem_of_ne_nil w hne
    have hl : l ∈ w.flatten := List.mem_flatten.mpr ⟨s0, hs0, hall s0 hs0⟩
    refine List.mem_filter.mpr ⟨List.mem_dedup.mpr hl, ?_⟩
    rw [hcount]
    exact decide_eq_true hMK
  · intro hlt hmem
    have h2 := (List.mem_filter.mp hmem).2
    have hle : M ≤ countFrames w l := of_decide_eq_true h2
    omega

/-- C7 witness: a person present in both of the last two frames with K = 2
and M = 2 is stable. -/
theorem stabilizer_window_property_witness :
    "person" ∈ stable_labels 2 (windowOf 2 [["car"], ["person"], ["person"]]) :=
  (stabilizer_window_property 2 2 (by decide) (by decide)
    [["car"], ["person"], ["person"]] (by decide) "person").1 (by decide)

/-- C8 counterexample: if the speech sink raises (`speak` fails), the
worker skips the `last_spoken_ts` update, so a second sink invocation can
occur within the cooldown window: with cooldown 3, a failing invocation at
time 5 is followed by an invocation at time 6. -/
theorem tts_cooldown_counterexample :
    ttsInvocations 3 [(5, "Watch out", false), (6, "Car ahead", true)] = [5, 6]
    ∧ (6 : ℚ) - 5 < 3 := by
  constructor
  · simp only [ttsInvocations, ttsInvocationsFrom, ttsStep, pyTruthy]
    norm_num
  · norm_num

/-- Worker run invariant: over a time-ordered trace whose sink calls all
succeed, the invocation times are spaced by at least the cooldown, and every
invocation lies at least one cooldown after the initial `last_spoken_ts`. -/
theorem tts_chain_from (cooldown : ℚ) (hcd : 0 < cooldown) :
    ∀ (trace : List (ℚ × String × Bool)) (st : SpeechState),
      (∀ e ∈ trace, e.2.2 = true) →
      List.Pairwise (fun e f : ℚ × String × Bool => e.1 ≤ f.1) trace →
      (∀ e ∈ trace, st.lastTs ≤ e.1) →
      List.Chain' (fun a b : ℚ => a + cooldown ≤ b)
        (ttsInvocationsFrom cooldown st trace)
      ∧ ∀ t ∈ ttsInvocationsFrom cooldown st trace, st.lastTs + cooldown ≤ t := by
  intro trace
  induction trace with
  | nil =>
    intro st _ _ _
    exact ⟨List.chain'_nil, by simp [ttsInvocationsFrom]⟩
  | cons e rest ih =>
    intro st hok hpw hts
    obtain ⟨now, text, ok⟩ := e
    have hok1 : ok = true := hok _ (List.mem_cons_self _ _)
    subst hok1
    have hts1 : st.lastTs ≤ now := hts _ (List.mem_cons_self _ _)
    have hpw' := List.pairwise_cons.mp hpw
    have hokr : ∀ f ∈ rest, f.2.2 = true := fun f hf => hok f (List.mem_cons_of_mem _ hf)
    rw [ttsInvocationsFrom]
    dsimp only
    by_cases hc : cooldown > 0 ∧ now - st.lastTs < cooldown
    · have hstep : ttsStep cooldown st now text true = (st, false) := by
        rw [ttsStep, if_pos hc]
      rw [hstep]
      exact ih st hokr hpw'.2 (fun f hf => hts f (List.mem_cons_of_mem _ hf))
    · by_cases hs : pyTruthy st.lastText = true ∧ is_similar text (st.lastText.getD "") = true
      · have hstep : ttsStep cooldown st now text true = (st, false) := by
          rw [ttsStep, if_neg hc, if_pos hs]
        rw [hstep]
        exact ih st hokr hpw'.2 (fun f hf => hts f (List.mem_cons_of_mem _ hf))
      · have hstep : ttsStep cooldown st now text true = (⟨some text, now⟩, true) := by
          rw [ttsStep, if_neg hc, if_neg hs]
          rfl
        rw [hstep]
        have hgap : st.lastTs + cooldown ≤ now := by
          rcases not_and_or.mp hc with h | h
          · exact absurd hcd h
          · push_neg at h
            linarith
        have hts' : ∀ f ∈ rest, (⟨some text, now⟩ : SpeechState).lastTs ≤ f.1 :=
          fun f hf => hpw'.1 f hf
        obtain ⟨hch, hall⟩ := ih ⟨some text, now⟩ hokr hpw'.2 hts'
        constructor
        · refine List.chain'_cons'.mpr ⟨fun b hb => ?_, hch⟩
          exact hall b (List.mem_of_mem_head? hb)
        · intro t ht
          rcases List.mem_cons.mp ht with h | h
          · rw [h]
            exact hgap
          · have := hall t h
            linarith

/-- C8 amended: provided the speech sink never raises, no two sink
invocations occur with a gap smaller than `cooldownSeconds` over any
time-ordered dequeue trace; and an item dequeued within the cooldown window
is discarded without being spoken and without state change. -/
theorem tts_cooldown_enforced (cooldown : ℚ) (trace : List (ℚ × String × Bool))
    (hcd : 0 < cooldown)
    (hok : ∀ e ∈ trace, e.2.2 = true)
    (hpw : List.Pairwise (fun e f : ℚ × String × Bool => e.1 ≤ f.1) trace)
    (hstart : ∀ e ∈ trace, (0 : ℚ) ≤ e.1) :
    List.Chain' (fun a b : ℚ => a + cooldown ≤ b) (ttsInvocations cooldown trace)
    ∧ ∀ (st : SpeechState) (now : ℚ) (text : String) (ok : Bool),
        now - st.lastTs < cooldown → ttsStep cooldown st now text ok = (st, false) := by
  constructor
  · exact (tts_chain_from cooldown hcd trace ⟨none, 0⟩ hok hpw hstart).1
  · intro st now text ok h
    rw [ttsStep, if_pos ⟨hcd, h⟩]

/-- C8 amended witness: three successful dequeues at times 4, 5, 8 with
cooldown 3. -/
theorem tts_cooldown_enforced_witness :
    List.Chain' (fun a b : ℚ => a + 3 ≤ b)
      (ttsInvocations 3
        [(4, "Watch out", true), (5, "Car ahead", true), (8, "A person is ahead", true)])
    ∧ ∀ (st : SpeechState) (now : ℚ) (text : String) (ok : Bool),
        now - st.lastTs < 3 → ttsStep 3 st now text ok = (st, false) :=
  tts_cooldown_enforced 3
    [(4, "Watch out", true), (5, "Car ahead", true), (8, "A person is ahead", true)]
    (by norm_num) (by simp) (by norm_num [List.pairwise_cons]) (by norm_num)

/-- The sampler loop invariant is preserved by every event. -/
theorem loopInv_step (n : Nat) (s : LoopState) (e : LoopEvent) (h : LoopInv s) :
    LoopInv (loopStep n s e) := by
  obtain ⟨h1, h2⟩ := h
  cases e with
  | frame =>
    rw [loopStep]
    rcases hp : s.pendingDone with - | b
    · rw [hp] at h1 h2
      have heq : s.submitted = s.completed := h2 (by simp)
      split_ifs with hi
      · exact ⟨fun hc => by simp at hc, fun _ => heq⟩
      · exact ⟨fun _ => by rw [heq], fun hc => absurd rfl hc⟩
    · cases b
      · rw [hp] at h1 h2
        have heq : s.submitted = s.completed + 1 := h1 rfl
        split_ifs with hi
        · exact ⟨fun _ => heq, fun hc => absurd rfl hc⟩
        · exact ⟨fun _ => heq, fun hc => absurd rfl hc⟩
      · rw [hp] at h1 h2
        have heq : s.submitted = s.completed := h2 (by simp)
        split_ifs with hi
        · exact ⟨fun hc => by simp at hc, fun _ => heq⟩
        · exact ⟨fun _ => by rw [heq], fun hc => absurd rfl hc⟩
  | complete =>
    rw [loopStep]
    rcases hp : s.pendingDone with - | b
    · exact ⟨h1, h2⟩
    · cases b
      · rw [hp] at h1 h2
        have heq : s.submitted = s.completed + 1 := h1 rfl
        show LoopInv ⟨s.frameIdx, some true, s.submitted, s.completed + 1⟩
        exact ⟨fun hc => by simp at hc, fun _ => heq⟩
      · exact ⟨h1, h2⟩

/-- The sampler loop invariant holds in every reachable state. -/
theorem loopInv_run (n : Nat) (evs : List LoopEvent) : LoopInv (loopRun n evs) := by
  rw [loopRun]
  have key : ∀ (l : List LoopEvent) (s : LoopState),
      LoopInv s → LoopInv (l.foldl (loopStep n) s) := by
    intro l
    induction l with
    | nil => exact fun s hs => hs
    | cons e es ih =>
      intro s hs
      rw [List.foldl_cons]
      exact ih (loopStep n s e) (loopInv_step n s e hs)
  exact key evs loopInit ⟨fun hc => by simp [loopInit] at hc, fun _ => rfl⟩

/-- C1: after any sequence of frame arrivals and completions, at most one
analysis task is in flight, and a frame arriving while the pending analysis
is still running changes nothing but the frame counter: no submission, no
queuing, no replacement of the pending handle. -/
theorem sampler_single_inflight (n : Nat) (hn : 0 < n) (evs : List LoopEvent) :
    inFlight (loopRun n evs) ≤ 1
    ∧ ((loopRun n evs).pendingDone = some false →
      loopStep n (loopRun n evs) LoopEvent.frame
        = ⟨(loopRun n evs).frameIdx + 1, (loopRun n evs).pendingDone,
          (loopRun n evs).submitted, (loopRun n evs).completed⟩) := by
  obtain ⟨h1, h2⟩ := loopInv_run n evs
  constructor
  · rw [inFlight]
    by_cases hp : (loopRun n evs).pendingDone = some false
    · have := h1 hp
      omega
    · have := h2 hp
      omega
  · intro hp
    rw [loopStep]
    rw [hp]
    split_ifs with hi <;> rfl

/-- C1 witness: a single sampled frame with the default stride 15. -/
theorem sampler_single_inflight_witness :
    inFlight (loopRun 15 [LoopEvent.frame]) ≤ 1
    ∧ ((loopRun 15 [LoopEvent.frame]).pendingDone = some false →
      loopStep 15 (loopRun 15 [LoopEvent.frame]) LoopEvent.frame
        = ⟨(loopRun 15 [LoopEvent.frame]).frameIdx + 1,
          (loopRun 15 [LoopEvent.frame]).pendingDone,
          (loopRun 15 [LoopEvent.frame]).submitted,
          (loopRun 15 [LoopEvent.frame]).completed⟩) :=
  sampler_single_inflight 15 (by decide) [LoopEvent.frame]
